import Mathlib

/-!
Verification development for the WordPress runtime orchestration subsystem
of the repository (wordpress_runtime.ts, port_utils.ts,
wordpress_binary_utils.ts, wordpress_core_utils.ts).

The embedding is shallow: every effectful step of the source (bind probes,
process spawns, file-existence checks, kills) is driven by an explicit
environment record describing the outcome the operating system would
produce, and each operation returns, besides its result, a trace of
side-effect events.  Pure computations (argument-list construction,
version-string parsing) are translated directly as Lean functions.
-/

namespace DyadWP

/-- Structured MySQL server version as produced by the version detector
(detectMySQLVersion in wordpress_runtime.ts). -/
structure MySQLVersion where
  major : Nat
  minor : Nat
  patch : Nat
deriving DecidableEq, Repr

/-- Operating-system platform as seen through process.platform; every value
other than darwin and win32 behaves like linux in the code under study. -/
inductive Platform where
  | darwin
  | win32
  | linux
deriving DecidableEq, Repr

/-- One command-line argument passed to the mysqld binary.  Each constructor
corresponds to one literal argument of the source; MySQLArg.render gives
the exact argument text. -/
inductive MySQLArg where
  | initInsecure
  | datadir (dir : String)
  | explicitDefaultsForTimestamp
  | logErrorVerbosity (n : Nat)
  | portArg (p : Nat)
  | bindAddress
  | skipNetworking0
  | console
  | user (u : String)
  | defaultAuthPluginNative
deriving DecidableEq, Repr

/-- Exact text of each mysqld argument as written in the source. -/
def MySQLArg.render : MySQLArg → String
  | .initInsecure => "--initialize-insecure"
  | .datadir d => "--datadir=" ++ d
  | .explicitDefaultsForTimestamp => "--explicit_defaults_for_timestamp"
  | .logErrorVerbosity n => "--log-error-verbosity=" ++ toString n
  | .portArg p => "--port=" ++ toString p
  | .bindAddress => "--bind-address=127.0.0.1"
  | .skipNetworking0 => "--skip-networking=0"
  | .console => "--console"
  | .user u => "--user=" ++ u
  | .defaultAuthPluginNative => "--default-authentication-plugin=mysql_native_password"

/-- Does this argument carry the drop-privilege flag (an argument of the
form --user=...)? -/
def MySQLArg.isUserFlag : MySQLArg → Bool
  | .user _ => true
  | _ => false

/-- Does this argument carry the legacy-auth-plugin flag
(--default-authentication-plugin=mysql_native_password)? -/
def MySQLArg.isLegacyAuthFlag : MySQLArg → Bool
  | .defaultAuthPluginNative => true
  | _ => false

/-- Truth value of the JavaScript test (mysqlVersion?.major >= 9), also used
as (mysqlVersion && mysqlVersion.major >= 9): false when the version is
undetected. -/
def versionAtLeast9 : Option MySQLVersion → Bool
  | some mv => decide (9 ≤ mv.major)
  | none => false

/-- Base argument list of the initialization step (initializeMySQL,
wordpress_runtime.ts lines 157-162). -/
def mysqlInitBaseArgs (dataDir : String) : List MySQLArg :=
  [.initInsecure, .datadir dataDir, .explicitDefaultsForTimestamp,
   .logErrorVerbosity 3]

/-- User-flag handling of the initialization step (lines 164-175): skipped
entirely for MySQL 9.x on macOS, and on other non-Windows platforms the
drop-privilege flag is appended when process.env.USER is set (none models
undefined; the empty string is falsy in JavaScript) and not root. -/
def mysqlInitUserArgs (plat : Platform) (currentUser : Option String)
    (v : Option MySQLVersion) (args : List MySQLArg) : List MySQLArg :=
  if plat = Platform.darwin ∧ versionAtLeast9 v then args
  else if plat ≠ Platform.win32 then
    match currentUser with
    | some u => if u ≠ "" ∧ u ≠ "root" then args ++ [.user u] else args
    | none => args
  else args

/-- Version-conditional part of the initialization step (lines 177-194): only
MySQL 8.0.x receives the legacy-auth-plugin flag. -/
def mysqlInitVersionArgs (v : Option MySQLVersion) (args : List MySQLArg) :
    List MySQLArg :=
  match v with
  | some mv =>
    if 9 ≤ mv.major then args
    else if mv.major = 8 ∧ 0 < mv.minor then args
    else if mv.major = 8 ∧ mv.minor = 0 then args ++ [.defaultAuthPluginNative]
    else args
  | none => args

/-- Argument list built by the initialization step of the runtime
(the private initializeMySQL method, wordpress_runtime.ts lines 157-194),
as a function of the platform, the current user, the detected version and
the data directory. -/
def mysqlInitArgs (plat : Platform) (currentUser : Option String)
    (v : Option MySQLVersion) (dataDir : String) : List MySQLArg :=
  mysqlInitVersionArgs v
    (mysqlInitUserArgs plat currentUser v (mysqlInitBaseArgs dataDir))

/-- Base argument list of startMySQL (wordpress_runtime.ts lines 314-321). -/
def mysqlBaseArgs (dataDir : String) (port : Nat) : List MySQLArg :=
  [.datadir dataDir, .portArg port, .bindAddress, .skipNetworking0,
   .console, .logErrorVerbosity 3]

/-- User-flag handling of startMySQL (lines 323-340): on macOS with MySQL 9.x
the call throws when the current user is root and otherwise omits the
drop-privilege flag; on other non-Windows platforms the flag is appended
for a set, nonempty, non-root user; on Windows nothing is added. -/
def mysqlUserArgs (plat : Platform) (currentUser : Option String)
    (v : Option MySQLVersion) (args : List MySQLArg) :
    Except String (List MySQLArg) :=
  if plat ≠ Platform.win32 then
    if plat = Platform.darwin ∧ versionAtLeast9 v then
      if currentUser = some "root" then
        .error "MySQL 9.x on macOS cannot run as root. Please run Dyad as a normal user."
      else .ok args
    else
      match currentUser with
      | some u => if u ≠ "" ∧ u ≠ "root" then .ok (args ++ [.user u]) else .ok args
      | none => .ok args
  else .ok args

/-- Version-conditional part of startMySQL (lines 342-365): only MySQL 8.0.x
receives the legacy-auth-plugin flag; 8.1+ and 9.x omit it, as does an
undetected version. -/
def mysqlVersionArgs (v : Option MySQLVersion) (args : List MySQLArg) :
    List MySQLArg :=
  match v with
  | some mv =>
    if 9 ≤ mv.major then args
    else if mv.major = 8 ∧ 1 ≤ mv.minor then args
    else if mv.major = 8 ∧ mv.minor = 0 then args ++ [.defaultAuthPluginNative]
    else args
  | none => args

/-- Result of the argument-construction phase of startMySQL
(wordpress_runtime.ts lines 313-365).  The error case models the throw for
MySQL 9.x on macOS when the current user is root; it happens before the
server process is spawned. -/
def startMySQLArgs (plat : Platform) (currentUser : Option String)
    (v : Option MySQLVersion) (dataDir : String) (port : Nat) :
    Except String (List MySQLArg) :=
  match mysqlUserArgs plat currentUser v (mysqlBaseArgs dataDir port) with
  | .error e => .error e
  | .ok args => .ok (mysqlVersionArgs v args)

/-- Outcome of one attempt to bind a TCP port inside findAvailablePort: the
listen succeeded, failed with EADDRINUSE, or failed with another error
code. -/
inductive BindOutcome where
  | free
  | inUse
  | otherError
deriving DecidableEq, Repr

/-- Environment for one call to getAvailablePort: the observed result of the
initial checkPortAvailable probe, the stream of random draws consumed by
findAvailablePort, and the outcome of each bind attempt there.  Outcomes
are indexed by attempt number because the OS port state can change between
probes. -/
structure PortEnv where
  firstProbeFree : Bool
  rand : Nat → Nat
  bind : Nat → BindOutcome

/-- Error taxonomy of the port allocator: exhaustion of the attempt budget,
or a non-EADDRINUSE bind error forwarded as-is. -/
inductive PortError where
  | exhaustion
  | other
deriving DecidableEq, Repr

/-- The recursive tryPort loop of findAvailablePort (port_utils.ts lines
43-88).  The first argument of the recursion is the number of attempts
already made, the second the remaining budget (maxAttempts minus attempts
made); each attempt draws the candidate
Math.floor(Math.random() * (maxPort - minPort + 1)) + minPort. -/
def tryPortLoop (env : PortEnv) (minPort maxPort : Nat) :
    Nat → Nat → Except PortError Nat
  | _, 0 => .error .exhaustion
  | attempt, fuel + 1 =>
    let cand := minPort + env.rand attempt % (maxPort - minPort + 1)
    match env.bind attempt with
    | .free => .ok cand
    | .inUse => tryPortLoop env minPort maxPort (attempt + 1) fuel
    | .otherError => .error .other

/-- findAvailablePort (port_utils.ts): at most three bind attempts, starting
from attempt number zero. -/
def findAvailablePort (env : PortEnv) (minPort maxPort : Nat) :
    Except PortError Nat :=
  tryPortLoop env minPort maxPort 0 3

/-- getAvailablePort (port_utils.ts lines 3-15): return the default port when
the initial probe finds it bindable, otherwise scan the window
[defaultPort, defaultPort + 1000].  checkPortAvailable only ever resolves,
so the catch branch of the source is dead and not modelled. -/
def getAvailablePort (env : PortEnv) (defaultPort : Nat) : Except PortError Nat :=
  if env.firstProbeFree then .ok defaultPort
  else findAvailablePort env defaultPort (defaultPort + 1000)

/-- allocateWordPressPorts (wordpress_binary_utils.ts lines 337-348): one
allocation for PHP with default 8080, then one for MySQL with default
3306, with independent probe environments. -/
def allocateWordPressPorts (envPhp envSql : PortEnv) :
    Except PortError (Nat × Nat) :=
  match getAvailablePort envPhp 8080 with
  | .error e => .error e
  | .ok phpPort =>
    match getAvailablePort envSql 3306 with
    | .error e => .error e
    | .ok mysqlPort => .ok (phpPort, mysqlPort)

/-- Any port produced by the tryPort loop lies between minPort and maxPort. -/
theorem tryPortLoop_range (env : PortEnv) (minPort maxPort : Nat)
    (hle : minPort ≤ maxPort) :
    ∀ attempt fuel p, tryPortLoop env minPort maxPort attempt fuel = .ok p →
      minPort ≤ p ∧ p ≤ maxPort := by
  intro attempt fuel
  induction fuel generalizing attempt with
  | zero => intro p h; simp [tryPortLoop] at h
  | succ n ih =>
    intro p h
    simp only [tryPortLoop] at h
    cases hb : env.bind attempt with
    | free =>
      rw [hb] at h
      simp only [Except.ok.injEq] at h
      subst h
      constructor
      · exact Nat.le_add_right _ _
      · have hmod : env.rand attempt % (maxPort - minPort + 1) ≤ maxPort - minPort :=
          Nat.lt_succ_iff.mp (Nat.mod_lt _ (Nat.succ_pos _))
        omega
    | inUse =>
      rw [hb] at h
      exact ih (attempt + 1) p h
    | otherError =>
      rw [hb] at h
      simp at h

/-- Any port produced by getAvailablePort lies in the window
[defaultPort, defaultPort + 1000]. -/
theorem getAvailablePort_range (env : PortEnv) (defaultPort p : Nat)
    (h : getAvailablePort env defaultPort = .ok p) :
    defaultPort ≤ p ∧ p ≤ defaultPort + 1000 := by
  unfold getAvailablePort at h
  by_cases hf : env.firstProbeFree
  · simp [hf] at h
    omega
  · simp [hf] at h
    exact tryPortLoop_range env defaultPort (defaultPort + 1000)
      (Nat.le_add_right _ _) 0 3 p h

/-- Character class of the regex token matching a decimal digit. -/
def isDigitChar (c : Char) : Bool := decide ('0' ≤ c) && decide (c ≤ '9')

/-- Character class of the regex whitespace token, restricted to the ASCII
whitespace characters (space, tab, line feed, vertical tab, form feed,
carriage return); the version strings under study contain only plain
spaces. -/
def isSpaceChar (c : Char) : Bool :=
  c == ' ' || c == '\t' || c == '\n' || c == '\r' || c == '\x0b' || c == '\x0c'

/-- Numeric value of a group of decimal digits, as computed by parseInt with
radix 10 on the captured digit string. -/
def digitsVal (l : List Char) : Nat :=
  l.foldl (fun n c => 10 * n + (c.toNat - '0'.toNat)) 0

/-- Recognize the literal characters Ver at the head of the list and return
what follows them. -/
def expectVer : List Char → Option (List Char)
  | c1 :: c2 :: c3 :: rest =>
    if c1 = 'V' ∧ c2 = 'e' ∧ c3 = 'r' then some rest else none
  | _ => none

/-- Recognize a literal dot at the head of the list and return what follows. -/
def expectDot : List Char → Option (List Char)
  | c :: rest => if c = '.' then some rest else none
  | [] => none

/-- Greedily take a nonempty group of characters of the class p, returning the
group and the remainder; fails when the group would be empty (the regex
token is one-or-more). -/
def takeGroup (p : Char → Bool) (l : List Char) : Option (List Char × List Char) :=
  if (l.takeWhile p).isEmpty then none
  else some (l.takeWhile p, l.dropWhile p)

/-- Attempt to match the pattern of the source regex — the literal characters
Ver, one or more whitespace characters, then three nonempty digit groups
separated by dots — at the head of the character list.  Greedy matching
without backtracking is faithful here because the character classes of
adjacent regex tokens are disjoint. -/
def matchVerAt (l : List Char) : Option (Nat × Nat × Nat) := do
  let rest ← expectVer l
  let g1 ← takeGroup isSpaceChar rest
  let g2 ← takeGroup isDigitChar g1.2
  let r3 ← expectDot g2.2
  let g3 ← takeGroup isDigitChar r3
  let r5 ← expectDot g3.2
  let g4 ← takeGroup isDigitChar r5
  pure (digitsVal g2.1, digitsVal g3.1, digitsVal g4.1)

/-- Left-to-right scan performed by String.match with a non-global unanchored
regex: try every start position from the left, first success wins. -/
def findVer : List Char → Option (Nat × Nat × Nat)
  | [] => none
  | c :: rest =>
    match matchVerAt (c :: rest) with
    | some v => some v
    | none => findVer rest

/-- Parse step of detectMySQLVersion (wordpress_runtime.ts lines 278-298):
match the combined output against the version regex and convert the three
captured digit groups with parseInt; null when the pattern is absent. -/
def parseMySQLVersionOutput (s : String) : Option MySQLVersion :=
  match findVer s.toList with
  | some (a, b, c) => some ⟨a, b, c⟩
  | none => none

/-- Specification-level reading of the phrase: the text contains an occurrence
of the pattern Ver major.minor.patch, i.e. somewhere the literal characters
Ver are followed by at least one whitespace character and three nonempty
digit groups separated by dots. -/
def ContainsVerPattern (l : List Char) : Prop :=
  ∃ pre sp d1 d2 d3 suf,
    l = pre ++ 'V' :: 'e' :: 'r' ::
      (sp ++ d1 ++ '.' :: (d2 ++ '.' :: (d3 ++ suf))) ∧
    sp ≠ [] ∧ (∀ c ∈ sp, isSpaceChar c) ∧
    d1 ≠ [] ∧ (∀ c ∈ d1, isDigitChar c) ∧
    d2 ≠ [] ∧ (∀ c ∈ d2, isDigitChar c) ∧
    d3 ≠ [] ∧ (∀ c ∈ d3, isDigitChar c)

/-- A successful Ver recognition decomposes the list. -/
theorem expectVer_sound (l rest : List Char) (h : expectVer l = some rest) :
    l = 'V' :: 'e' :: 'r' :: rest := by
  match l, h with
  | [], h => simp [expectVer] at h
  | [c1], h => simp [expectVer] at h
  | [c1, c2], h => simp [expectVer] at h
  | c1 :: c2 :: c3 :: r, h =>
    by_cases hv : c1 = 'V' ∧ c2 = 'e' ∧ c3 = 'r'
    · obtain ⟨h1, h2, h3⟩ := hv
      subst h1; subst h2; subst h3
      simp [expectVer] at h
      rw [h]
    · simp [expectVer, hv] at h

/-- A successful dot recognition decomposes the list. -/
theorem expectDot_sound (l rest : List Char) (h : expectDot l = some rest) :
    l = '.' :: rest := by
  match l, h with
  | [], h => simp [expectDot] at h
  | c :: r, h =>
    by_cases hc : c = '.'
    · subst hc
      simp [expectDot] at h
      rw [h]
    · simp [expectDot, hc] at h

/-- A successful group capture decomposes the list into a nonempty group of
characters of the class followed by the remainder. -/
theorem takeGroup_sound (p : Char → Bool) (l : List Char)
    (g : List Char × List Char) (h : takeGroup p l = some g) :
    l = g.1 ++ g.2 ∧ g.1 ≠ [] ∧ ∀ c ∈ g.1, p c := by
  unfold takeGroup at h
  by_cases he : (l.takeWhile p).isEmpty
  · simp [he] at h
  · simp only [if_neg he, Option.some.injEq] at h
    subst h
    refine ⟨(List.takeWhile_append_dropWhile p l).symm,
      by simpa [List.isEmpty_iff] using he, ?_⟩
    intro c hc
    exact List.mem_takeWhile_imp hc

/-- A successful head match exhibits the pattern with an empty left context. -/
theorem matchVerAt_sound (l : List Char) (v : Nat × Nat × Nat)
    (h : matchVerAt l = some v) : ContainsVerPattern l := by
  simp only [matchVerAt, bind, Option.bind_eq_some] at h
  obtain ⟨rest, hrest, g1, hg1, g2, hg2, r3, hr3, g3, hg3, r5, hr5, g4, hg4, hv⟩ := h
  obtain ⟨e1, hsp, hspAll⟩ := takeGroup_sound _ _ _ hg1
  obtain ⟨e2, hd1, hd1All⟩ := takeGroup_sound _ _ _ hg2
  obtain ⟨e3, hd2, hd2All⟩ := takeGroup_sound _ _ _ hg3
  obtain ⟨e4, hd3, hd3All⟩ := takeGroup_sound _ _ _ hg4
  refine ⟨[], g1.1, g2.1, g3.1, g4.1, g4.2, ?_, hsp, hspAll, hd1, hd1All,
    hd2, hd2All, hd3, hd3All⟩
  have hver := expectVer_sound _ _ hrest
  have hdot1 := expectDot_sound _ _ hr3
  have hdot2 := expectDot_sound _ _ hr5
  rw [hver, e1, e2, hdot1, e3, hdot2, e4]
  simp

/-- A successful scan exhibits the pattern somewhere in the text. -/
theorem findVer_sound (l : List Char) (v : Nat × Nat × Nat)
    (h : findVer l = some v) : ContainsVerPattern l := by
  induction l with
  | nil => simp [findVer] at h
  | cons c rest ih =>
    simp only [findVer] at h
    cases hm : matchVerAt (c :: rest) with
    | some w =>
      exact matchVerAt_sound _ w hm
    | none =>
      rw [hm] at h
      obtain ⟨pre, sp, d1, d2, d3, suf, heq, hrest⟩ := ih h
      exact ⟨c :: pre, sp, d1, d2, d3, suf, by simp [heq], hrest⟩

/-- Environment for waitForMySQL: the exit code of the probe client process at
each attempt.  An attempt whose spawn throws lands in the catch branch of
the source and behaves exactly like a nonzero exit code, so it is modelled
as one. -/
structure WaitEnv where
  exitCode : Nat → Int

/-- Observable step of the readiness wait: one connectivity probe, or one
one-second sleep. -/
inductive WaitStep where
  | probe (attempt : Nat)
  | sleepOneSecond
deriving DecidableEq, Repr

/-- Number of connectivity probes in a wait trace. -/
def countProbes : List WaitStep → Nat
  | [] => 0
  | .probe _ :: tr => countProbes tr + 1
  | .sleepOneSecond :: tr => countProbes tr

/-- Number of one-second sleeps in a wait trace. -/
def countSleeps : List WaitStep → Nat
  | [] => 0
  | .probe _ :: tr => countSleeps tr
  | .sleepOneSecond :: tr => countSleeps tr + 1

/-- The polling loop of waitForMySQL: probe, return on exit code zero,
otherwise sleep one second and retry while budget remains.  The boolean
result models normal return (true) against the thrown startup-failure
error (false). -/
def waitLoop (env : WaitEnv) : Nat → Nat → Bool × List WaitStep
  | _, 0 => (false, [])
  | attempt, fuel + 1 =>
    if env.exitCode attempt = 0 then (true, [.probe attempt])
    else
      let rest := waitLoop env (attempt + 1) fuel
      (rest.1, .probe attempt :: .sleepOneSecond :: rest.2)

/-- waitForMySQL (wordpress_runtime.ts lines 425-472) with its default budget
of 60 attempts. -/
def waitForMySQL (env : WaitEnv) : Bool × List WaitStep :=
  waitLoop env 0 60

/-- Index of the first attempt with exit code zero among the next fuel
attempts starting at the given attempt number. -/
def firstReady (env : WaitEnv) : Nat → Nat → Option Nat
  | _, 0 => none
  | attempt, fuel + 1 =>
    if env.exitCode attempt = 0 then some attempt
    else firstReady env (attempt + 1) fuel

/-- Runtime record of the process pair of one app (interface WordPressProcess of
wordpress_runtime.ts); the opaque ChildProcess handles are modelled by
numeric process identifiers. -/
structure WordPressProcess where
  mysqlPid : Nat
  phpPid : Nat
  mysqlPort : Nat
  phpPort : Nat
  appPath : String
deriving DecidableEq, Repr

/-- The in-memory process table (the private field processes of class
WordPressRuntime, a Map from appId), modelled as an association list with
unique keys in insertion order. -/
abbrev Registry := List (String × WordPressProcess)

/-- Map.get combined with Map.has: the entry stored under the key, if any. -/
def lookupApp (r : Registry) (appId : String) : Option WordPressProcess :=
  match r.find? (fun e => e.1 == appId) with
  | some e => some e.2
  | none => none

/-- Map.set: replace the entry when the key is present, append otherwise. -/
def setApp (r : Registry) (appId : String) (p : WordPressProcess) : Registry :=
  if (r.find? (fun e => e.1 == appId)).isSome then
    r.map (fun e => if e.1 == appId then (appId, p) else e)
  else r ++ [(appId, p)]

/-- Map.delete: remove the entry with the given key. -/
def deleteApp (r : Registry) (appId : String) : Registry :=
  r.filter (fun e => !(e.1 == appId))

/-- isRunning (wordpress_runtime.ts lines 722-724): membership in the process
table. -/
def isRunning (st : Registry) (appId : String) : Bool :=
  (lookupApp st appId).isSome

/-- getRunningProcesses (wordpress_runtime.ts lines 706-717): a freshly built
map sending each registered appId to its recorded PHP and MySQL ports. -/
def getRunningProcesses (st : Registry) : List (String × Nat × Nat) :=
  st.map (fun e => (e.1, e.2.phpPort, e.2.mysqlPort))

/-- Port pair recorded for an appId in the value returned by
getRunningProcesses. -/
def lookupPorts (m : List (String × Nat × Nat)) (appId : String) :
    Option (Nat × Nat) :=
  match m.find? (fun e => e.1 == appId) with
  | some e => some e.2
  | none => none

/-- Observable side effects of the supervisor, used to state the frame and
rollback properties. -/
inductive Event where
  | checkBinaries
  | allocPorts
  | probePort (port : Nat)
  | makeDataDir (appPath : String)
  | runMySQLInit (appPath : String)
  | wipeDataDir (appPath : String)
  | spawnMySQL (pid : Nat)
  | writeWpConfig (appPath : String) (mysqlPort : Nat)
  | writePhpConfig (appPath : String) (phpPort : Nat)
  | setupCore (appPath : String)
  | createTheme (appPath : String)
  | spawnPHP (pid : Nat)
  | killPhpTree (pid : Nat)
  | mysqlShutdownCmd (port : Nat)
  | killMySQLTree (pid : Nat)
deriving DecidableEq, Repr

/-- Error taxonomy of the start path. -/
inductive StartError where
  | missingBinaries (missing : List String)
  | portAllocFailed (e : PortError)
  | phpPortInUse (port : Nat)
  | mysqlPortInUse (port : Nat)
  | mysqlInitFailed
  | mysqlInitRetryFailed
  | mysqlRootOnMac
  | mysqlNotReady
  | coreSetupFailed
  | phpSpawnFailed
deriving DecidableEq, Repr

/-- Environment for one stop call: whether the graceful SHUTDOWN client
command completed before the five-second timeout.  Errors reported by
treeKill are absorbed by the source and influence no control flow, so
they need no field. -/
structure StopEnv where
  shutdownClean : Bool
deriving DecidableEq, Repr

/-- stop (wordpress_runtime.ts lines 627-685).  An unknown appId logs and
returns; otherwise the PHP process tree is signalled, a graceful SHUTDOWN
command is issued to MySQL with a tree kill as timeout fallback, every
termination error is absorbed by the try/catch blocks of the source, and
the entry is removed unconditionally.  The function is total because no
branch of the source can throw past those try/catch blocks. -/
def stop (env : StopEnv) (st : Registry) (appId : String) :
    Registry × List Event :=
  match lookupApp st appId with
  | none => (st, [])
  | some p =>
    (deleteApp st appId,
     [Event.killPhpTree p.phpPid, Event.mysqlShutdownCmd p.mysqlPort] ++
       (if env.shutdownClean then [] else [Event.killMySQLTree p.mysqlPid]))

/-- Environment describing the outcome of every effectful step of one start
call.  mysqlReady abstracts the combined outcome of waitForMySQL and
createWordPressDatabase, which run after the server spawn (the wait loop
itself is modelled exactly by waitForMySQL above). -/
structure StartEnv where
  binariesAvailable : Bool
  missing : List String
  alloc : Except PortError (Nat × Nat)
  phpPortBusy : Bool
  mysqlPortBusy : Bool
  platform : Platform
  currentUser : Option String
  mysqlVersion : Option MySQLVersion
  dataDirExists : Bool
  initOk : Bool
  retryInitOk : Bool
  mysqlPid : Nat
  mysqlReady : Bool
  wpConfigExists : Bool
  coreSetupOk : Bool
  phpSpawnOk : Bool
  phpPid : Nat
  stopEnv : StopEnv

/-- Data-directory provisioning step of start (lines 70-97): create and
initialize the MySQL data directory when absent, with the wipe-and-retry
recovery applied only on macOS. -/
def initDataDirStep (env : StartEnv) (appPath : String) :
    Except StartError Unit × List Event :=
  if env.dataDirExists then (.ok (), [])
  else if env.initOk then
    (.ok (), [.makeDataDir appPath, .runMySQLInit appPath])
  else if env.platform = Platform.darwin then
    if env.retryInitOk then
      (.ok (), [.makeDataDir appPath, .runMySQLInit appPath, .wipeDataDir appPath,
                .makeDataDir appPath, .runMySQLInit appPath])
    else
      (.error .mysqlInitRetryFailed,
       [.makeDataDir appPath, .runMySQLInit appPath, .wipeDataDir appPath,
        .makeDataDir appPath, .runMySQLInit appPath])
  else (.error .mysqlInitFailed, [.makeDataDir appPath, .runMySQLInit appPath])

/-- startMySQL step of the supervisor (lines 304-420): construct the
version-conditional argument list — which refuses to run as root on macOS
with MySQL 9.x before anything is spawned — then spawn mysqld, wait for
readiness and create the database.  A failure after the spawn leaves the
spawned process handle only in a local variable of the source. -/
def startMySQLStep (env : StartEnv) (appPath : String) (port : Nat) :
    Except StartError Nat × List Event :=
  match startMySQLArgs env.platform env.currentUser env.mysqlVersion
      (appPath ++ "/.wordpress-data/mysql") port with
  | .error _ => (.error .mysqlRootOnMac, [])
  | .ok _ =>
    if env.mysqlReady then (.ok env.mysqlPid, [.spawnMySQL env.mysqlPid])
    else (.error .mysqlNotReady, [.spawnMySQL env.mysqlPid])

/-- Body of the try block of start (lines 69-135): everything between the
port probes and the registration.  The wp-config file is written only when
absent; the PHP config is always rewritten. -/
def startBody (env : StartEnv) (appPath : String) (phpPort mysqlPort : Nat) :
    Except StartError WordPressProcess × List Event :=
  match initDataDirStep env appPath with
  | (.error e, tr) => (.error e, tr)
  | (.ok _, tr0) =>
    match startMySQLStep env appPath mysqlPort with
    | (.error e, tr) => (.error e, tr0 ++ tr)
    | (.ok mysqlPid, tr1) =>
      let tr2 := tr0 ++ tr1 ++
        (if env.wpConfigExists then [] else [Event.writeWpConfig appPath mysqlPort]) ++
        [Event.writePhpConfig appPath phpPort]
      if env.coreSetupOk then
        let tr3 := tr2 ++ [Event.setupCore appPath, Event.createTheme appPath]
        if env.phpSpawnOk then
          (.ok ⟨mysqlPid, env.phpPid, mysqlPort, phpPort, appPath⟩,
           tr3 ++ [Event.spawnPHP env.phpPid])
        else (.error .phpSpawnFailed, tr3)
      else (.error .coreSetupFailed, tr2 ++ [Event.setupCore appPath])

/-- start (wordpress_runtime.ts lines 36-142), mirroring the source control
flow: early return for an already-registered appId, binary check, port
allocation and the two port probes (all outside the try block, so a
failure there performs no cleanup), then the try block whose failure
triggers stop appId as cleanup before the error propagates. -/
def start (env : StartEnv) (st : Registry) (appId appPath : String) :
    Except StartError (Nat × Nat) × Registry × List Event :=
  match lookupApp st appId with
  | some p => (.ok (p.phpPort, p.mysqlPort), st, [])
  | none =>
    if env.binariesAvailable then
      match env.alloc with
      | .error e => (.error (.portAllocFailed e), st, [.checkBinaries, .allocPorts])
      | .ok (phpPort, mysqlPort) =>
        if env.phpPortBusy then
          (.error (.phpPortInUse phpPort), st,
           [.checkBinaries, .allocPorts, .probePort phpPort])
        else if env.mysqlPortBusy then
          (.error (.mysqlPortInUse mysqlPort), st,
           [.checkBinaries, .allocPorts, .probePort phpPort, .probePort mysqlPort])
        else
          match startBody env appPath phpPort mysqlPort with
          | (.ok proc, tr) =>
            (.ok (phpPort, mysqlPort), setApp st appId proc,
             [Event.checkBinaries, Event.allocPorts,
              Event.probePort phpPort, Event.probePort mysqlPort] ++ tr)
          | (.error e, tr) =>
            let cleanup := stop env.stopEnv st appId
            (.error e, cleanup.1,
             [Event.checkBinaries, Event.allocPorts,
              Event.probePort phpPort, Event.probePort mysqlPort] ++ tr ++ cleanup.2)
    else (.error (.missingBinaries env.missing), st, [.checkBinaries])

/-- The first ready attempt is not earlier than the starting attempt. -/
theorem firstReady_ge (env : WaitEnv) (fuel : Nat) :
    ∀ attempt i, firstReady env attempt fuel = some i → attempt ≤ i := by
  induction fuel with
  | zero => intro attempt i h; simp [firstReady] at h
  | succ n ih =>
    intro attempt i h
    simp only [firstReady] at h
    by_cases he : env.exitCode attempt = 0
    · rw [if_pos he] at h
      simp at h
      omega
    · rw [if_neg he] at h
      have := ih (attempt + 1) i h
      omega

/-- The first ready attempt lies inside the budget window. -/
theorem firstReady_lt (env : WaitEnv) (fuel : Nat) :
    ∀ attempt i, firstReady env attempt fuel = some i → i < attempt + fuel := by
  induction fuel with
  | zero => intro attempt i h; simp [firstReady] at h
  | succ n ih =>
    intro attempt i h
    simp only [firstReady] at h
    by_cases he : env.exitCode attempt = 0
    · rw [if_pos he] at h
      simp at h
      omega
    · rw [if_neg he] at h
      have := ih (attempt + 1) i h
      omega

/-- Full characterization of the polling loop: it reports readiness exactly
when some attempt in the budget has exit code zero, probes once per
attempt up to and including the first ready one, and sleeps one second
after every failed probe. -/
theorem waitLoop_spec (env : WaitEnv) (fuel : Nat) :
    ∀ attempt,
      ((waitLoop env attempt fuel).1 = true ↔
        (firstReady env attempt fuel).isSome = true) ∧
      countProbes (waitLoop env attempt fuel).2 =
        (match firstReady env attempt fuel with
         | some i => i + 1 - attempt
         | none => fuel) ∧
      countSleeps (waitLoop env attempt fuel).2 =
        (match firstReady env attempt fuel with
         | some i => i - attempt
         | none => fuel) := by
  induction fuel with
  | zero =>
    intro attempt
    simp [waitLoop, firstReady, countProbes, countSleeps]
  | succ n ih =>
    intro attempt
    simp only [waitLoop, firstReady]
    by_cases he : env.exitCode attempt = 0
    · rw [if_pos he, if_pos he]
      simp [countProbes, countSleeps]
    · rw [if_neg he, if_neg he]
      obtain ⟨ih1, ih2, ih3⟩ := ih (attempt + 1)
      refine ⟨ih1, ?_, ?_⟩
      · simp only [countProbes]
        cases hf : firstReady env (attempt + 1) n with
        | some i =>
          rw [hf] at ih2
          have hge := firstReady_ge env n (attempt + 1) i hf
          rw [ih2]
          show i + 1 - (attempt + 1) + 1 = i + 1 - attempt
          omega
        | none =>
          rw [hf] at ih2
          rw [ih2]
      · simp only [countSleeps]
        cases hf : firstReady env (attempt + 1) n with
        | some i =>
          rw [hf] at ih3
          have hge := firstReady_ge env n (attempt + 1) i hf
          rw [ih3]
          show i - (attempt + 1) + 1 = i - attempt
          omega
        | none =>
          rw [hf] at ih3
          rw [ih3]

/-- Deleting a key removes it from lookup. -/
theorem lookupApp_deleteApp (st : Registry) (appId : String) :
    lookupApp (deleteApp st appId) appId = none := by
  induction st with
  | nil => rfl
  | cons e rest ih =>
    by_cases he : e.1 == appId
    · simpa [deleteApp, lookupApp, List.filter_cons, he] using ih
    · simpa [deleteApp, lookupApp, List.filter_cons, List.find?_cons, he] using ih

/-- An absent key has no matching entry at the find? level. -/
theorem find_none_of_lookup_none (st : Registry) (appId : String)
    (h : lookupApp st appId = none) :
    st.find? (fun e => e.1 == appId) = none := by
  unfold lookupApp at h
  cases hff : st.find? (fun e => e.1 == appId) with
  | none => rfl
  | some e => rw [hff] at h; simp at h

/-- Appending a fresh entry makes it visible to lookup when the key was
absent. -/
theorem lookupApp_append_single (st : Registry) (appId : String)
    (p : WordPressProcess) (h : lookupApp st appId = none) :
    lookupApp (st ++ [(appId, p)]) appId = some p := by
  have hf := find_none_of_lookup_none st appId h
  unfold lookupApp
  rw [List.find?_append, hf]
  simp [List.find?]

/-- Map.set on an absent key makes the new entry visible to lookup. -/
theorem lookupApp_setApp_absent (st : Registry) (appId : String)
    (p : WordPressProcess) (h : lookupApp st appId = none) :
    lookupApp (setApp st appId p) appId = some p := by
  have hf := find_none_of_lookup_none st appId h
  unfold setApp
  rw [hf]
  simp only [Option.isSome_none, Bool.false_eq_true, if_false]
  exact lookupApp_append_single st appId p h

/-- C4: stop returns on every input — it is a total function, mirroring the
try/catch structure of the source in which every internal termination
error is absorbed — and after it returns the registry has no entry for the
appId, for known, unknown and already-stopped apps alike, under both
graceful and forced shutdown outcomes. -/
theorem stop_always_deregisters (env : StopEnv) (st : Registry) (appId : String) :
    lookupApp (stop env st appId).1 appId = none ∧
    isRunning (stop env st appId).1 appId = false := by
  have hmain : lookupApp (stop env st appId).1 appId = none := by
    unfold stop
    cases hl : lookupApp st appId with
    | none => exact hl
    | some p => exact lookupApp_deleteApp st appId
  exact ⟨hmain, by simp [isRunning, hmain]⟩

/-- C10: the value built by getRunningProcesses contains exactly the
registered appIds, each mapped to its recorded PHP and MySQL port pair,
and membership in it coincides with isRunning.  The function reads the
registry and returns a separately constructed list, so in this value
semantics no operation a caller performs on the returned value can reach
the supervisor state. -/
theorem getRunningProcesses_exact (st : Registry) (appId : String) :
    lookupPorts (getRunningProcesses st) appId =
      Option.map (fun p => (p.phpPort, p.mysqlPort)) (lookupApp st appId) ∧
    (lookupPorts (getRunningProcesses st) appId).isSome = isRunning st appId := by
  have hmain : lookupPorts (getRunningProcesses st) appId =
      Option.map (fun p => (p.phpPort, p.mysqlPort)) (lookupApp st appId) := by
    induction st with
    | nil => rfl
    | cons e rest ih =>
      by_cases he : e.1 == appId
      · simp [lookupPorts, getRunningProcesses, lookupApp, List.find?_cons, he]
      · simpa [lookupPorts, getRunningProcesses, lookupApp, List.find?_cons, he]
          using ih
  refine ⟨hmain, ?_⟩
  rw [isRunning, hmain]
  cases lookupApp st appId <;> rfl

/-- A successful try-block body returns a process record carrying exactly the
allocated ports. -/
theorem startBody_ok_fields (env : StartEnv) (appPath : String)
    (phpPort mysqlPort : Nat) (proc : WordPressProcess) (tr : List Event)
    (h : startBody env appPath phpPort mysqlPort = (.ok proc, tr)) :
    proc.phpPort = phpPort ∧ proc.mysqlPort = mysqlPort := by
  unfold startBody at h
  cases h0 : initDataDirStep env appPath with
  | mk res0 tr0 =>
    rw [h0] at h
    cases res0 with
    | error e => simp at h
    | ok u =>
      cases h1 : startMySQLStep env appPath mysqlPort with
      | mk res1 tr1 =>
        rw [h1] at h
        cases res1 with
        | error e => simp at h
        | ok pid =>
          by_cases hc : env.coreSetupOk = true
          · by_cases hp : env.phpSpawnOk = true
            · simp only [hc, hp, if_true, Prod.mk.injEq, Except.ok.injEq] at h
              obtain ⟨hproc, htr⟩ := h
              subst hproc
              exact ⟨rfl, rfl⟩
            · simp [hc, hp] at h
          · simp [hc] at h

/-- A successful start call leaves a registry entry for the appId whose
recorded ports are the returned ones. -/
theorem start_ok_registered (env : StartEnv) (st : Registry)
    (appId appPath : String) (pp mp : Nat)
    (h : (start env st appId appPath).1 = .ok (pp, mp)) :
    ∃ proc, lookupApp (start env st appId appPath).2.1 appId = some proc ∧
      proc.phpPort = pp ∧ proc.mysqlPort = mp := by
  cases hl : lookupApp st appId with
  | some p =>
    simp only [start, hl, Except.ok.injEq, Prod.mk.injEq] at h ⊢
    exact ⟨p, rfl, h.1, h.2⟩
  | none =>
    simp only [start, hl] at h ⊢
    by_cases hb : env.binariesAvailable = true
    · simp only [hb, if_true] at h ⊢
      cases ha : env.alloc with
      | error e => simp [ha] at h
      | ok pr =>
        cases pr with
        | mk phpPort mysqlPort =>
          simp only [ha] at h ⊢
          by_cases hpb : env.phpPortBusy = true
          · simp [hpb] at h
          · by_cases hmb : env.mysqlPortBusy = true
            · simp [hpb, hmb] at h
            · simp only [hpb, hmb, Bool.false_eq_true, if_false] at h ⊢
              cases hbody : startBody env appPath phpPort mysqlPort with
              | mk res tr =>
                simp only [hbody] at h ⊢
                cases res with
                | error e => simp at h
                | ok proc =>
                  simp only [Except.ok.injEq, Prod.mk.injEq] at h
                  obtain ⟨hpp, hmp⟩ := h
                  obtain ⟨hf1, hf2⟩ :=
                    startBody_ok_fields env appPath phpPort mysqlPort proc tr hbody
                  refine ⟨proc, ?_, by omega, by omega⟩
                  exact lookupApp_setApp_absent st appId proc hl
    · simp [hb] at h

/-- C3: a second start call for an appId whose first call succeeded, with no
intervening stop, returns the very same port pair, leaves the registry
untouched and produces an empty side-effect trace — no port allocation,
no probe, no config write, no process spawn. -/
theorem start_idempotent (env1 env2 : StartEnv) (st : Registry)
    (appId appPath1 appPath2 : String) (pp mp : Nat)
    (h : (start env1 st appId appPath1).1 = .ok (pp, mp)) :
    start env2 (start env1 st appId appPath1).2.1 appId appPath2 =
      (.ok (pp, mp), (start env1 st appId appPath1).2.1, []) := by
  obtain ⟨proc, hl, hpp, hmp⟩ := start_ok_registered env1 st appId appPath1 pp mp h
  set st2 := (start env1 st appId appPath1).2.1 with hst2
  simp only [start, hl, hpp, hmp]

/-- Environment in which every step of a start call succeeds. -/
def envAllOk : StartEnv :=
  { binariesAvailable := true
    missing := []
    alloc := .ok (8080, 3306)
    phpPortBusy := false
    mysqlPortBusy := false
    platform := Platform.linux
    currentUser := some "alice"
    mysqlVersion := some ⟨8, 0, 35⟩
    dataDirExists := false
    initOk := true
    retryInitOk := true
    mysqlPid := 100
    mysqlReady := true
    wpConfigExists := false
    coreSetupOk := true
    phpSpawnOk := true
    phpPid := 200
    stopEnv := ⟨true⟩ }

/-- Witness for C3: a concrete successful first call followed by a second
call with the same appId. -/
theorem start_idempotent_witness :
    start envAllOk ((start envAllOk [] "app-1" "/apps/app-1").2.1) "app-1" "/apps/app-2" =
      (.ok (8080, 3306), (start envAllOk [] "app-1" "/apps/app-1").2.1, []) :=
  start_idempotent envAllOk envAllOk [] "app-1" "/apps/app-1" "/apps/app-2"
    8080 3306 rfl

/-- The data-directory step never writes the app config file
(wp-config.php); its writes target the data directory only. -/
theorem initDataDirStep_no_wpconfig (env : StartEnv) (appPath : String)
    (p : String) (n : Nat) :
    Event.writeWpConfig p n ∉ (initDataDirStep env appPath).2 := by
  unfold initDataDirStep
  split
  · simp
  · split
    · simp
    · split
      · split <;> simp
      · simp

/-- The MySQL start step never writes the app config file. -/
theorem startMySQLStep_no_wpconfig (env : StartEnv) (appPath : String)
    (port : Nat) (p : String) (n : Nat) :
    Event.writeWpConfig p n ∉ (startMySQLStep env appPath port).2 := by
  unfold startMySQLStep
  split
  · simp
  · split <;> simp

/-- The stop path never writes the app config file. -/
theorem stop_no_wpconfig (env : StopEnv) (st : Registry) (appId : String)
    (p : String) (n : Nat) :
    Event.writeWpConfig p n ∉ (stop env st appId).2 := by
  unfold stop
  split
  · simp
  · split <;> simp

/-- When the app config file already exists, the try-block body never writes
it. -/
theorem startBody_no_wpconfig (env : StartEnv) (appPath : String)
    (phpPort mysqlPort : Nat) (h : env.wpConfigExists = true)
    (p : String) (n : Nat) :
    Event.writeWpConfig p n ∉ (startBody env appPath phpPort mysqlPort).2 := by
  unfold startBody
  cases h0 : initDataDirStep env appPath with
  | mk res0 tr0 =>
    have ht0 : Event.writeWpConfig p n ∉ tr0 := by
      have := initDataDirStep_no_wpconfig env appPath p n
      rw [h0] at this
      exact this
    cases res0 with
    | error e => simpa using ht0
    | ok u =>
      cases h1 : startMySQLStep env appPath mysqlPort with
      | mk res1 tr1 =>
        have ht1 : Event.writeWpConfig p n ∉ tr1 := by
          have := startMySQLStep_no_wpconfig env appPath mysqlPort p n
          rw [h1] at this
          exact this
        cases res1 with
        | error e =>
          intro hmem
          simp only [List.mem_append] at hmem
          rcases hmem with hmem | hmem
          exacts [ht0 hmem, ht1 hmem]
        | ok pid =>
          by_cases hc : env.coreSetupOk = true
          · by_cases hp : env.phpSpawnOk = true
            · intro hmem
              simp only [hc, hp, h, if_true] at hmem
              simp [List.mem_append] at hmem
              rcases hmem with hmem | hmem
              exacts [ht0 hmem, ht1 hmem]
            · intro hmem
              simp only [hc, hp, h, if_true, Bool.false_eq_true, if_false] at hmem
              simp [List.mem_append] at hmem
              rcases hmem with hmem | hmem
              exacts [ht0 hmem, ht1 hmem]
          · intro hmem
            simp only [hc, h, if_true, Bool.false_eq_true, if_false] at hmem
            simp [List.mem_append] at hmem
            rcases hmem with hmem | hmem
            exacts [ht0 hmem, ht1 hmem]

/-- C8: when the app config file already exists at the expected path, no
branch of start emits a write to it, whatever registry state, appId,
allocated ports and step outcomes occur; the only call site in the source
that writes wp-config.php is guarded by the existence check, and the
other writers (PHP ini, core files, theme) target other paths. -/
theorem start_no_wpconfig_overwrite (env : StartEnv) (st : Registry)
    (appId appPath : String) (h : env.wpConfigExists = true) :
    ∀ p n, Event.writeWpConfig p n ∉ (start env st appId appPath).2.2 := by
  intro p n
  cases hl : lookupApp st appId with
  | some q => simp [start, hl]
  | none =>
    simp only [start, hl]
    by_cases hb : env.binariesAvailable = true
    · simp only [hb, if_true]
      cases ha : env.alloc with
      | error e => simp [ha]
      | ok pr =>
        cases pr with
        | mk phpPort mysqlPort =>
          simp only [ha]
          by_cases hpb : env.phpPortBusy = true
          · simp [hpb]
          · by_cases hmb : env.mysqlPortBusy = true
            · simp [hpb, hmb]
            · simp only [hpb, hmb, Bool.false_eq_true, if_false]
              cases hbody : startBody env appPath phpPort mysqlPort with
              | mk res tr =>
                have htr : Event.writeWpConfig p n ∉ tr := by
                  have := startBody_no_wpconfig env appPath phpPort mysqlPort h p n
                  rw [hbody] at this
                  exact this
                have hstop := stop_no_wpconfig env.stopEnv st appId p n
                cases res with
                | error e =>
                  intro hmem
                  simp [List.mem_append] at hmem
                  rcases hmem with hmem | hmem
                  exacts [htr hmem, hstop hmem]
                | ok proc =>
                  intro hmem
                  simp [List.mem_append] at hmem
                  exact htr hmem
    · simp [hb]

/-- Environment for the C8 witness: a fully successful start over an existing
app config file. -/
def envWpExisting : StartEnv :=
  { envAllOk with
    wpConfigExists := true }

/-- Witness for C8 at a concrete environment with an existing config file. -/
theorem start_no_wpconfig_overwrite_witness :
    Event.writeWpConfig "/apps/app-1" 3306 ∉
      (start envWpExisting [] "app-1" "/apps/app-1").2.2 :=
  start_no_wpconfig_overwrite envWpExisting [] "app-1" "/apps/app-1" rfl
    "/apps/app-1" 3306

/-- Does the event terminate, or request termination of, the MySQL server
process (a kill of its process tree or the administrative SHUTDOWN
command)? -/
def stopsMySQL : Event → Bool
  | .killMySQLTree _ => true
  | .mysqlShutdownCmd _ => true
  | _ => false

/-- Environment forcing the scenario of P5: every step succeeds up to the PHP
interpreter spawn, which fails, after MySQL (pid 100) has been spawned and
become ready. -/
def envPhpFails : StartEnv :=
  { envAllOk with
    dataDirExists := true
    wpConfigExists := true
    phpSpawnOk := false }

/-- C1 exhibit: when the interpreter spawn fails after the database server
was spawned, start propagates the error and the registry stays empty —
but the trace contains the MySQL spawn and not a single termination of
it.  The cleanup call stop appId finds no registry entry, because
registration happens only after the PHP spawn, and returns without
touching the freshly spawned server: the database process is orphaned,
against what the claim states. -/
theorem start_php_failure_orphans_mysql :
    (start envPhpFails [] "app-1" "/apps/app-1").1 = .error .phpSpawnFailed ∧
    lookupApp (start envPhpFails [] "app-1" "/apps/app-1").2.1 "app-1" = none ∧
    isRunning (start envPhpFails [] "app-1" "/apps/app-1").2.1 "app-1" = false ∧
    Event.spawnMySQL 100 ∈ (start envPhpFails [] "app-1" "/apps/app-1").2.2 ∧
    ((start envPhpFails [] "app-1" "/apps/app-1").2.2.all
      fun e => !stopsMySQL e) = true := by
  refine ⟨rfl, rfl, rfl, ?_, rfl⟩
  decide

/-- Every element added by the user step of startMySQL is either from the
input list or a drop-privilege flag. -/
theorem mysqlUserArgs_mem (plat : Platform) (u : Option String)
    (v : Option MySQLVersion) (args args2 : List MySQLArg)
    (h : mysqlUserArgs plat u v args = .ok args2) :
    ∀ a ∈ args2, a ∈ args ∨ a.isUserFlag = true := by
  unfold mysqlUserArgs at h
  split at h
  · split at h
    · split at h
      · simp at h
      · simp only [Except.ok.injEq] at h
        subst h
        intro a ha
        exact Or.inl ha
    · split at h
      · split at h
        · simp only [Except.ok.injEq] at h
          subst h
          intro a ha
          rcases List.mem_append.mp ha with ha | ha
          · exact Or.inl ha
          · simp only [List.mem_singleton] at ha
            subst ha
            exact Or.inr rfl
        · simp only [Except.ok.injEq] at h
          subst h
          intro a ha
          exact Or.inl ha
      · simp only [Except.ok.injEq] at h
        subst h
        intro a ha
        exact Or.inl ha
  · simp only [Except.ok.injEq] at h
    subst h
    intro a ha
    exact Or.inl ha

/-- On macOS with a 9.x version, and on Windows, a successful user step of
startMySQL returns the input list unchanged: the drop-privilege flag is
never appended there. -/
theorem mysqlUserArgs_id_darwin_win32 (plat : Platform) (u : Option String)
    (v : Option MySQLVersion) (args args2 : List MySQLArg)
    (hp : plat = Platform.darwin ∨ plat = Platform.win32)
    (h9 : versionAtLeast9 v = true)
    (h : mysqlUserArgs plat u v args = .ok args2) : args2 = args := by
  rcases hp with hp | hp <;> subst hp
  · unfold mysqlUserArgs at h
    rw [if_pos (by decide : Platform.darwin ≠ Platform.win32)] at h
    rw [if_pos ⟨rfl, h9⟩] at h
    split at h
    · simp at h
    · simp only [Except.ok.injEq] at h
      exact h.symm
  · unfold mysqlUserArgs at h
    rw [if_neg (by simp : ¬(Platform.win32 ≠ Platform.win32))] at h
    simp only [Except.ok.injEq] at h
    exact h.symm

/-- When the detected version is not 9.x, the user step of startMySQL never
throws. -/
theorem mysqlUserArgs_ok_of_not9 (plat : Platform) (u : Option String)
    (v : Option MySQLVersion) (args : List MySQLArg)
    (h9 : versionAtLeast9 v = false) :
    ∃ args2, mysqlUserArgs plat u v args = .ok args2 := by
  unfold mysqlUserArgs
  split
  · split
    · rename_i hcond
      rw [h9] at hcond
      simp at hcond
    · split
      · split
        · exact ⟨_, rfl⟩
        · exact ⟨_, rfl⟩
      · exact ⟨_, rfl⟩
  · exact ⟨_, rfl⟩

/-- The user step applied by initializeMySQL adds at most a drop-privilege
flag to its input. -/
theorem mysqlInitUserArgs_mem (plat : Platform) (u : Option String)
    (v : Option MySQLVersion) (args : List MySQLArg) :
    ∀ a ∈ mysqlInitUserArgs plat u v args, a ∈ args ∨ a.isUserFlag = true := by
  unfold mysqlInitUserArgs
  split
  · intro a ha; exact Or.inl ha
  · split
    · split
      · split
        · intro a ha
          rcases List.mem_append.mp ha with ha | ha
          · exact Or.inl ha
          · simp only [List.mem_singleton] at ha
            subst ha
            exact Or.inr rfl
        · intro a ha; exact Or.inl ha
      · intro a ha; exact Or.inl ha
    · intro a ha; exact Or.inl ha

/-- On macOS with a 9.x version, and on Windows, the initialization user step
is the identity. -/
theorem mysqlInitUserArgs_id_darwin_win32 (plat : Platform) (u : Option String)
    (v : Option MySQLVersion) (args : List MySQLArg)
    (hp : plat = Platform.darwin ∨ plat = Platform.win32)
    (h9 : versionAtLeast9 v = true) :
    mysqlInitUserArgs plat u v args = args := by
  rcases hp with hp | hp <;> subst hp
  · simp [mysqlInitUserArgs, h9]
  · simp [mysqlInitUserArgs, h9]

/-- No member of a base list or drop-privilege flag is the legacy-auth
flag. -/
theorem no_auth_from_base_init (d : String) (a : MySQLArg)
    (h : a ∈ mysqlInitBaseArgs d ∨ a.isUserFlag = true) :
    a.isLegacyAuthFlag = false := by
  cases a <;> simp_all [mysqlInitBaseArgs, MySQLArg.isUserFlag,
    MySQLArg.isLegacyAuthFlag]

/-- No member of the startup base list or drop-privilege flag is the
legacy-auth flag. -/
theorem no_auth_from_base_start (d : String) (port : Nat) (a : MySQLArg)
    (h : a ∈ mysqlBaseArgs d port ∨ a.isUserFlag = true) :
    a.isLegacyAuthFlag = false := by
  cases a <;> simp_all [mysqlBaseArgs, MySQLArg.isUserFlag,
    MySQLArg.isLegacyAuthFlag]

/-- With version 9.2.0 the startup version step adds nothing. -/
theorem mysqlVersionArgs_920 (args : List MySQLArg) :
    mysqlVersionArgs (some ⟨9, 2, 0⟩) args = args := rfl

/-- With version 8.0.35 the startup version step appends the legacy-auth
flag. -/
theorem mysqlVersionArgs_8035 (args : List MySQLArg) :
    mysqlVersionArgs (some ⟨8, 0, 35⟩) args =
      args ++ [.defaultAuthPluginNative] := rfl

/-- With version 8.3.0 the startup version step adds nothing. -/
theorem mysqlVersionArgs_830 (args : List MySQLArg) :
    mysqlVersionArgs (some ⟨8, 3, 0⟩) args = args := rfl

/-- With version 9.2.0 the initialization version step adds nothing. -/
theorem mysqlInitVersionArgs_920 (args : List MySQLArg) :
    mysqlInitVersionArgs (some ⟨9, 2, 0⟩) args = args := rfl

/-- C2 counterexample: with MySQL 9.2.0 detected, on Linux with current user
alice the constructed startup argument list does contain a drop-privilege
flag — the claim that for 9.2.0 the lists contain no such flag under any
platform input fails; the guard that omits it is macOS-specific. -/
theorem startMySQLArgs_920_linux_user_flag :
    startMySQLArgs Platform.linux (some "alice") (some ⟨9, 2, 0⟩) "/data" 3307 =
      .ok [MySQLArg.datadir "/data", .portArg 3307, .bindAddress,
           .skipNetworking0, .console, .logErrorVerbosity 3, .user "alice"] ∧
    ([MySQLArg.datadir "/data", .portArg 3307, .bindAddress, .skipNetworking0,
      .console, .logErrorVerbosity 3, .user "alice"].any
        (fun a => a.isUserFlag)) = true := ⟨rfl, rfl⟩

/-- C2 amended: for a detected version of 9.2.0, neither the initialization
nor the startup argument list ever contains the legacy-auth-plugin flag,
and on macOS (the platform with the root-detection defect) and on Windows
they contain no drop-privilege flag either — on other Unix platforms that
flag is still appended for a set, nonempty, non-root current user.  For
8.0.35 the constructed startup list contains the legacy-auth-plugin flag;
for 8.3.0 it does not. -/
theorem mysqlArgs_version_flag_policy (plat : Platform) (u : Option String)
    (d : String) (port : Nat) :
    ((mysqlInitArgs plat u (some ⟨9, 2, 0⟩) d).all
        (fun a => !a.isLegacyAuthFlag) = true) ∧
    ((plat = Platform.darwin ∨ plat = Platform.win32) →
      (mysqlInitArgs plat u (some ⟨9, 2, 0⟩) d).all
        (fun a => !a.isUserFlag) = true) ∧
    (∀ args, startMySQLArgs plat u (some ⟨9, 2, 0⟩) d port = .ok args →
      args.all (fun a => !a.isLegacyAuthFlag) = true ∧
      ((plat = Platform.darwin ∨ plat = Platform.win32) →
        args.all (fun a => !a.isUserFlag) = true)) ∧
    (∃ args, startMySQLArgs plat u (some ⟨8, 0, 35⟩) d port = .ok args ∧
      args.any (fun a => a.isLegacyAuthFlag) = true) ∧
    (∀ args, startMySQLArgs plat u (some ⟨8, 3, 0⟩) d port = .ok args →
      args.all (fun a => !a.isLegacyAuthFlag) = true) := by
  refine ⟨?_, ?_, ?_, ?_, ?_⟩
  · rw [List.all_eq_true]
    intro a ha
    rw [mysqlInitArgs, mysqlInitVersionArgs_920] at ha
    have hm := mysqlInitUserArgs_mem plat u (some ⟨9, 2, 0⟩)
      (mysqlInitBaseArgs d) a ha
    simp [no_auth_from_base_init d a hm]
  · intro hp
    rw [List.all_eq_true]
    intro a ha
    rw [mysqlInitArgs, mysqlInitVersionArgs_920,
      mysqlInitUserArgs_id_darwin_win32 plat u (some ⟨9, 2, 0⟩)
        (mysqlInitBaseArgs d) hp rfl] at ha
    cases a <;> simp_all [mysqlInitBaseArgs, MySQLArg.isUserFlag]
  · intro args hok
    cases hcase : mysqlUserArgs plat u (some ⟨9, 2, 0⟩) (mysqlBaseArgs d port) with
    | error e => simp [startMySQLArgs, hcase] at hok
    | ok args2 =>
      simp only [startMySQLArgs, hcase, mysqlVersionArgs_920,
        Except.ok.injEq] at hok
      subst hok
      constructor
      · rw [List.all_eq_true]
        intro a ha
        have hm := mysqlUserArgs_mem plat u (some ⟨9, 2, 0⟩)
          (mysqlBaseArgs d port) args2 hcase a ha
        simp [no_auth_from_base_start d port a hm]
      · intro hp
        rw [mysqlUserArgs_id_darwin_win32 plat u (some ⟨9, 2, 0⟩)
          (mysqlBaseArgs d port) args2 hp rfl hcase]
        rw [List.all_eq_true]
        intro a ha
        cases a <;> simp_all [mysqlBaseArgs, MySQLArg.isUserFlag]
  · obtain ⟨args2, hu⟩ := mysqlUserArgs_ok_of_not9 plat u (some ⟨8, 0, 35⟩)
      (mysqlBaseArgs d port) rfl
    refine ⟨args2 ++ [.defaultAuthPluginNative], ?_, ?_⟩
    · simp only [startMySQLArgs, hu, mysqlVersionArgs_8035]
    · simp [List.any_append, MySQLArg.isLegacyAuthFlag]
  · intro args hok
    cases hcase : mysqlUserArgs plat u (some ⟨8, 3, 0⟩) (mysqlBaseArgs d port) with
    | error e => simp [startMySQLArgs, hcase] at hok
    | ok args2 =>
      simp only [startMySQLArgs, hcase, mysqlVersionArgs_830,
        Except.ok.injEq] at hok
      subst hok
      rw [List.all_eq_true]
      intro a ha
      have hm := mysqlUserArgs_mem plat u (some ⟨8, 3, 0⟩)
        (mysqlBaseArgs d port) args2 hcase a ha
      simp [no_auth_from_base_start d port a hm]

/-- Witness for the amended C2 theorem at concrete inputs: on macOS with
user bob and version 9.2.0 the initialization list has no drop-privilege
flag, and the startup list for those inputs has no legacy-auth flag. -/
theorem mysqlArgs_policy_witness :
    ((mysqlInitArgs Platform.darwin (some "bob") (some ⟨9, 2, 0⟩) "/d").all
      (fun a => !a.isUserFlag) = true) ∧
    ((mysqlBaseArgs "/d" 7).all (fun a => !a.isLegacyAuthFlag) = true) :=
  ⟨(mysqlArgs_version_flag_policy Platform.darwin (some "bob") "/d" 7).2.1
      (Or.inl rfl),
   ((mysqlArgs_version_flag_policy Platform.darwin (some "bob") "/d" 7).2.2.1
      (mysqlBaseArgs "/d" 7) rfl).1⟩

/-- C5: every successful port-pair allocation returns two distinct ports —
each single allocation stays in the window above its default (8080 for
PHP, 3306 for MySQL), and these windows are disjoint, for every possible
outcome of the underlying bind probes. -/
theorem allocateWordPressPorts_distinct (envPhp envSql : PortEnv)
    (pp mp : Nat)
    (h : allocateWordPressPorts envPhp envSql = .ok (pp, mp)) : pp ≠ mp := by
  unfold allocateWordPressPorts at h
  cases h1 : getAvailablePort envPhp 8080 with
  | error e => simp [h1] at h
  | ok p =>
    rw [h1] at h
    cases h2 : getAvailablePort envSql 3306 with
    | error e => simp [h2] at h
    | ok m =>
      rw [h2] at h
      simp only [Except.ok.injEq, Prod.mk.injEq] at h
      obtain ⟨hp, hm⟩ := h
      have r1 := getAvailablePort_range envPhp 8080 p h1
      have r2 := getAvailablePort_range envSql 3306 m h2
      omega

/-- PortEnv in which the initial probe finds the default port bindable. -/
def portEnvFree : PortEnv := ⟨true, fun _ => 0, fun _ => .free⟩

/-- Witness for C5 at concrete probe environments. -/
theorem allocateWordPressPorts_distinct_witness :
    allocateWordPressPorts portEnvFree portEnvFree = .ok (8080, 3306) ∧
    (8080 : Nat) ≠ 3306 :=
  ⟨rfl, allocateWordPressPorts_distinct portEnvFree portEnvFree 8080 3306 rfl⟩

/-- PortEnv where the initial probe reports the default port busy while the
first random draw has offset zero and its bind then succeeds. -/
def portEnvOffsetZero : PortEnv := ⟨false, fun _ => 0, fun _ => .free⟩

/-- PortEnv where the initial probe reports the default port busy and the
first bind attempt fails with an error other than address-in-use. -/
def portEnvOtherError : PortEnv := ⟨false, fun _ => 0, fun _ => .otherError⟩

/-- C6 counterexample: with the preferred port initially busy, the allocator
can still return the preferred port itself — the random window of the
source is preferredPort .. preferredPort + 1000, so the claimed window
preferredPort + 1 .. preferredPort + 1000 excludes a port the code can
return.  And when a bind attempt fails with an error other than
address-in-use, no candidate binds within the budget yet the failure is
that error, not the port-exhaustion error the claim names. -/
theorem getAvailablePort_busy_returns_preferred :
    portEnvOffsetZero.firstProbeFree = false ∧
    getAvailablePort portEnvOffsetZero 8080 = .ok 8080 ∧
    ¬(8080 + 1 ≤ 8080) ∧
    getAvailablePort portEnvOtherError 8080 = .error .other ∧
    PortError.other ≠ PortError.exhaustion :=
  ⟨rfl, rfl, by omega, rfl, by decide⟩

/-- C6 amended: the allocator returns the preferred port whenever the
initial probe finds it bindable; otherwise every port it returns lies in
the window preferredPort .. preferredPort + 1000, which includes the
preferred port itself; and when every bind attempt of the fixed
three-attempt budget fails with address-in-use, it fails with the
port-exhaustion error rather than returning a port. -/
theorem getAvailablePort_spec (env : PortEnv) (d : Nat) :
    (env.firstProbeFree = true → getAvailablePort env d = .ok d) ∧
    (∀ p, getAvailablePort env d = .ok p → d ≤ p ∧ p ≤ d + 1000) ∧
    ((env.firstProbeFree = false ∧ ∀ i, i < 3 → env.bind i = .inUse) →
      getAvailablePort env d = .error .exhaustion) := by
  refine ⟨?_, ?_, ?_⟩
  · intro hf
    simp [getAvailablePort, hf]
  · intro p h
    exact getAvailablePort_range env d p h
  · rintro ⟨hf, hb⟩
    have b0 := hb 0 (by omega)
    have b1 := hb 1 (by omega)
    have b2 := hb 2 (by omega)
    simp [getAvailablePort, hf, findAvailablePort, tryPortLoop, b0, b1, b2]

/-- PortEnv in which every bind attempt fails with EADDRINUSE. -/
def portEnvAllBusy : PortEnv := ⟨false, fun _ => 0, fun _ => .inUse⟩

/-- PortEnv for the first part of the C6 witness. -/
def portEnvFirstFree : PortEnv := ⟨true, fun _ => 0, fun _ => .inUse⟩

/-- Witness for the amended C6 theorem at concrete environments. -/
theorem getAvailablePort_spec_witness :
    getAvailablePort portEnvFirstFree 9000 = .ok 9000 ∧
    ((8080 : Nat) ≤ 8080 ∧ 8080 ≤ 8080 + 1000) ∧
    getAvailablePort portEnvAllBusy 8080 = .error .exhaustion :=
  ⟨(getAvailablePort_spec portEnvFirstFree 9000).1 rfl,
   (getAvailablePort_spec portEnvOffsetZero 8080).2.1 8080 rfl,
   (getAvailablePort_spec portEnvAllBusy 8080).2.2 ⟨rfl, fun _ _ => rfl⟩⟩

/-- C7: the version-detector parse step maps the two literal outputs to the
structured versions 9.2.0 and 8.0.33, and on every string in which the
pattern (the characters Ver, whitespace, and three dot-separated digit
groups) does not occur it returns none — it is a total function, so no
input makes it raise an error. -/
theorem detect_version_parse_spec :
    parseMySQLVersionOutput
        "mysqld  Ver 9.2.0 for osx10.19 on x86_64 (Homebrew)" =
      some ⟨9, 2, 0⟩ ∧
    parseMySQLVersionOutput
        "mysqld  Ver 8.0.33 for Linux on x86_64 (MySQL Community Server - GPL)" =
      some ⟨8, 0, 33⟩ ∧
    ∀ s : String, parseMySQLVersionOutput s = none ∨
      ContainsVerPattern s.toList := by
  refine ⟨by decide, by decide, ?_⟩
  intro s
  cases hf : findVer s.toList with
  | none =>
    left
    have hf2 : findVer s.data = none := hf
    simp [parseMySQLVersionOutput, hf2]
  | some v =>
    right
    exact findVer_sound s.toList v hf

/-- C9: the readiness wait terminates for every environment with a bounded
effort — at most 60 probes and 60 one-second sleeps — returning normally
exactly when some probe within the budget succeeds (right after the first
such probe, having slept once per failed probe before it) and reporting
the startup failure when all 60 fail. -/
theorem waitForMySQL_bounded_and_exact (env : WaitEnv) :
    ((waitForMySQL env).1 = true ↔ (firstReady env 0 60).isSome = true) ∧
    countProbes (waitForMySQL env).2 =
      (match firstReady env 0 60 with
       | some i => i + 1
       | none => 60) ∧
    countSleeps (waitForMySQL env).2 =
      (match firstReady env 0 60 with
       | some i => i
       | none => 60) ∧
    countProbes (waitForMySQL env).2 ≤ 60 ∧
    countSleeps (waitForMySQL env).2 ≤ 60 := by
  obtain ⟨h1, h2, h3⟩ := waitLoop_spec env 60 0
  have e2 : countProbes (waitForMySQL env).2 =
      (match firstReady env 0 60 with
       | some i => i + 1
       | none => 60) := by
    rw [waitForMySQL, h2]
    cases hf : firstReady env 0 60 with
    | some i => simp
    | none => rfl
  have e3 : countSleeps (waitForMySQL env).2 =
      (match firstReady env 0 60 with
       | some i => i
       | none => 60) := by
    rw [waitForMySQL, h3]
    cases hf : firstReady env 0 60 with
    | some i => simp
    | none => rfl
  refine ⟨h1, e2, e3, ?_, ?_⟩
  · rw [e2]
    cases hf : firstReady env 0 60 with
    | some i =>
      have := firstReady_lt env 60 0 i hf
      show i + 1 ≤ 60
      omega
    | none => simp
  · rw [e3]
    cases hf : firstReady env 0 60 with
    | some i =>
      have := firstReady_lt env 60 0 i hf
      show i ≤ 60
      omega
    | none => simp

end DyadWP
